import Mathlib

/-!
Shallow embedding of the task-tracking / billing microservices
(task service in `lab9/s3_upload_object.go` after the Go `package main`
separator, billing service and admin gate in the unnamed Go file).

The persistent collection is modelled as a list of schemaless documents
(`Doc`), matching how the Mongo driver stores BSON documents; typed `Task`
values are the decoded view used by the handlers, exactly as the Go code
decodes a document into the `Task` struct.  External collaborators (the
billing HTTP endpoint, the identity service) are modelled by passing their
response as an explicit argument, since their bodies are remote.
-/

namespace TaskService

/-- Mongo object identifiers, opaque; `0` plays the role of
`primitive.NilObjectID` (the zero value, treated as absent by `omitempty`). -/
abbrev ObjectId := Nat

/-- BSON-style values as they occur in this system: JSON scalars arriving in
request bodies (`str`, `num`, `boolean`, `null`) plus the two storage-side
types the handlers write (`time` for parsed dates, `oid` for object ids). -/
inductive BVal where
  | str : String → BVal
  | num : ℚ → BVal
  | boolean : Bool → BVal
  | null : BVal
  | time : Int → BVal
  | oid : ObjectId → BVal
deriving DecidableEq, Repr

/-- A stored document: ordered field/value pairs, first occurrence wins. -/
abbrev Doc := List (String × BVal)

/-- The `Task` struct of the task service (decoded view of a document).
`invoiceID = 0` models the zero `primitive.ObjectID` (absent under
`omitempty`); `parentTask` is the `*primitive.ObjectID` pointer. -/
structure Task where
  id : ObjectId
  title : String
  description : String
  assignedTo : ObjectId
  status : String
  hours : ℚ
  startDate : Int
  endDate : Int
  invoiceID : ObjectId
  parentTask : Option ObjectId
deriving DecidableEq, Repr

/-- The `Billing` struct shared by the task and billing services. -/
structure Billing where
  id : ObjectId
  userID : ObjectId
  taskID : ObjectId
  hours : ℚ
  amount : ℚ
deriving DecidableEq, Repr

/-- Reading a string field during BSON decode: a missing field yields the
Go zero value `""`, a wrong-typed field is a decode error. -/
def getStr (d : Doc) (k : String) : Option String :=
  match d.lookup k with
  | none => some ""
  | some (BVal.str s) => some s
  | some _ => none

/-- Reading a numeric field during BSON decode (zero value `0`). -/
def getNum (d : Doc) (k : String) : Option ℚ :=
  match d.lookup k with
  | none => some 0
  | some (BVal.num q) => some q
  | some _ => none

/-- Reading a datetime field during BSON decode (zero value modelled `0`). -/
def getTime (d : Doc) (k : String) : Option Int :=
  match d.lookup k with
  | none => some 0
  | some (BVal.time t) => some t
  | some _ => none

/-- Reading an object-id field during BSON decode (zero object id `0`). -/
def getOid (d : Doc) (k : String) : Option ObjectId :=
  match d.lookup k with
  | none => some 0
  | some (BVal.oid i) => some i
  | some _ => none

/-- Reading an optional (pointer) object-id field during BSON decode. -/
def getOptOid (d : Doc) (k : String) : Option (Option ObjectId) :=
  match d.lookup k with
  | none => some none
  | some (BVal.oid i) => some (some i)
  | some _ => none

/-- BSON decode of a stored document into the `Task` struct, as
`FindOne(...).Decode(&task)` does: wrong-typed fields fail, missing fields
take the Go zero value. -/
def decode (d : Doc) : Option Task := do
  let i ← getOid d "_id"
  let t ← getStr d "title"
  let de ← getStr d "description"
  let a ← getOid d "assigned_to"
  let st ← getStr d "status"
  let h ← getNum d "hours"
  let sd ← getTime d "start_date"
  let ed ← getTime d "end_date"
  let inv ← getOid d "invoice_id"
  let pt ← getOptOid d "parent_task"
  some { id := i, title := t, description := de, assignedTo := a, status := st,
         hours := h, startDate := sd, endDate := ed, invoiceID := inv, parentTask := pt }

/-- BSON encode of a `Task` for insertion, following the struct tags:
`invoice_id` and `parent_task` carry `omitempty`, so a zero invoice id and a
nil parent pointer are omitted. -/
def encode (t : Task) : Doc :=
  [("_id", BVal.oid t.id), ("title", BVal.str t.title),
   ("description", BVal.str t.description), ("assigned_to", BVal.oid t.assignedTo),
   ("status", BVal.str t.status), ("hours", BVal.num t.hours),
   ("start_date", BVal.time t.startDate), ("end_date", BVal.time t.endDate)]
  ++ (if t.invoiceID ≠ 0 then [("invoice_id", BVal.oid t.invoiceID)] else [])
  ++ (match t.parentTask with
      | some p => [("parent_task", BVal.oid p)]
      | none => [])

/-- `$set` of a single field: replace the first occurrence, else append. -/
def setField (d : Doc) (k : String) (v : BVal) : Doc :=
  match d with
  | [] => [(k, v)]
  | (k2, v2) :: rest =>
    if k2 = k then (k, v) :: rest else (k2, v2) :: setField rest k v

/-- Applying a `$set` update document to a stored document. -/
def applySet (d : Doc) (s : Doc) : Doc :=
  s.foldl (fun acc p => setField acc p.1 p.2) d

/-- `FindOne` with an `_id` equality filter. -/
def findOne (store : List Doc) (i : ObjectId) : Option Doc :=
  store.find? (fun d => d.lookup "_id" == some (BVal.oid i))

/-- `UpdateOne` with an `_id` equality filter and a `$set` document:
the first matching document is updated in place. -/
def updateOne (store : List Doc) (i : ObjectId) (s : Doc) : List Doc :=
  match store with
  | [] => []
  | d :: rest =>
    if d.lookup "_id" = some (BVal.oid i) then applySet d s :: rest
    else d :: updateOne rest i s

/-- Decimal digit of a character, if any. -/
def digitVal (c : Char) : Option Nat :=
  if c.isDigit then some (c.toNat - 48) else none

/-- Two decimal digits. -/
def twoDigits (a b : Char) : Option Nat := do
  let x ← digitVal a
  let y ← digitVal b
  some (10 * x + y)

/-- Model of the external `time.Parse(time.RFC3339, s)` call: accepts the
Z-suffixed form `YYYY-MM-DDTHH:MM:SSZ` with in-range components and returns
a totally ordered instant; every other string is a parse failure. -/
def parseRFC3339 (s : String) : Option Int :=
  match s.toList with
  | [y1, y2, y3, y4, c1, m1, m2, c2, d1, d2, c3, h1, h2, c4, n1, n2, c5, p1, p2, c6] =>
    if c1 = '-' ∧ c2 = '-' ∧ c3 = 'T' ∧ c4 = ':' ∧ c5 = ':' ∧ c6 = 'Z' then do
      let yh ← twoDigits y1 y2
      let yl ← twoDigits y3 y4
      let mo ← twoDigits m1 m2
      let da ← twoDigits d1 d2
      let ho ← twoDigits h1 h2
      let mi ← twoDigits n1 n2
      let se ← twoDigits p1 p2
      if 1 ≤ mo ∧ mo ≤ 12 ∧ 1 ≤ da ∧ da ≤ 31 ∧ ho ≤ 23 ∧ mi ≤ 59 ∧ se ≤ 59 then
        some (Int.ofNat (((((yh * 100 + yl) * 12 + mo) * 31 + da) * 24 + ho) * 3600
          + mi * 60 + se))
      else none
    else none
  | _ => none

/-- Hexadecimal digit of a character, if any. -/
def hexVal (c : Char) : Option Nat :=
  if c.isDigit then some (c.toNat - 48)
  else if 'a' ≤ c ∧ c ≤ 'f' then some (c.toNat - 87)
  else if 'A' ≤ c ∧ c ≤ 'F' then some (c.toNat - 55)
  else none

/-- Accumulating hex reader. -/
def hexNatAux (acc : Nat) : List Char → Option Nat
  | [] => some acc
  | c :: rest =>
    match hexVal c with
    | none => none
    | some v => hexNatAux (16 * acc + v) rest

/-- Model of `primitive.ObjectIDFromHex`: exactly 24 hex characters. -/
def objectIDFromHex (s : String) : Option ObjectId :=
  if s.length = 24 then hexNatAux 0 s.toList else none

/-- One iteration of the `updateTask` field loop (the `switch key` body):
`ok (some kv)` adds an entry to the `$set` document, `ok none` silently
drops the key (unrecognized key, or a date / parent value that is not a
string, failing the Go type assertion), `error` is the early
`http.Error(..., http.StatusBadRequest)` return. -/
def patchEntry (key : String) (value : BVal) : Except String (Option (String × BVal)) :=
  if key = "title" ∨ key = "description" ∨ key = "assigned_to" ∨ key = "status"
      ∨ key = "hours" then
    Except.ok (some (key, value))
  else if key = "start_date" ∨ key = "end_date" then
    match value with
    | BVal.str dateString =>
      match parseRFC3339 dateString with
      | none => Except.error "Invalid date format"
      | some parsedDate => Except.ok (some (key, BVal.time parsedDate))
    | _ => Except.ok none
  else if key = "parent_task" then
    match value with
    | BVal.str parentTaskIDString =>
      match objectIDFromHex parentTaskIDString with
      | none => Except.error "Invalid parent task ID"
      | some parentTaskID => Except.ok (some ("parent_task", BVal.oid parentTaskID))
    | _ => Except.ok none
  else Except.ok none

/-- The `updateTask` loop building `updateDoc["$set"]` from the decoded
request map; the first invalid date or parent id aborts with the error. -/
def buildUpdateDoc : List (String × BVal) → Except String Doc
  | [] => Except.ok []
  | (key, value) :: rest =>
    match patchEntry key value with
    | Except.error e => Except.error e
    | Except.ok none => buildUpdateDoc rest
    | Except.ok (some kv) =>
      match buildUpdateDoc rest with
      | Except.error e => Except.error e
      | Except.ok d => Except.ok (kv :: d)

/-- The fixed system-wide `hourlyRate := 100.0` of
`createInvoiceInBillingService`. -/
def hourlyRate : ℚ := 100

/-- The response of the remote billing endpoint, as observed by the task
service: connection failure, or a status code together with the result of
decoding the response body into a `Billing`. -/
inductive HttpResp where
  | connError : HttpResp
  | resp : Nat → Option Billing → HttpResp
deriving DecidableEq, Repr

/-- The invoice request payload built by `createInvoiceInBillingService`:
the `Billing` struct marshalled and POSTed, with the zero `ID` and
`amount = hours × hourlyRate` computed from the passed (pre-update) task. -/
def billingPayload (task : Task) : Billing :=
  { id := 0, userID := task.assignedTo, taskID := task.id,
    hours := task.hours, amount := task.hours * hourlyRate }

/-- The error handling of `createInvoiceInBillingService` after the POST:
a connection error, a non-`http.StatusOK` status, or a body that fails to
decode are all errors; on success the created record's id is returned. -/
def invoiceOutcome : HttpResp → Except Unit ObjectId
  | HttpResp.connError => Except.error ()
  | HttpResp.resp status body =>
    if status = 200 then
      match body with
      | some createdBilling => Except.ok createdBilling.id
      | none => Except.error ()
    else Except.error ()

/-- `createInvoiceInBillingService`: returns the payload it sent (for
observability of the billing side effect) and its result. -/
def createInvoiceInBillingService (task : Task) (resp : HttpResp) :
    Billing × Except Unit ObjectId :=
  (billingPayload task, invoiceOutcome resp)

/-- Outcome of one `updateTask` request: the HTTP status written, the task
store afterwards, and the invoice payloads POSTed to the billing service
during the request. -/
structure UpdateResult where
  status : Nat
  store : List Doc
  invoiceCalls : List Billing
deriving DecidableEq, Repr

/-- The `updateTask` handler.  Arguments model the request: its method, the
id segment of the URL, the decoded JSON body (`none` is a decode failure),
and the billing collaborator's response should it be contacted.  Mirrors
the source order: method check, id parse, body decode, `$set` construction
(with early validation returns), `FindOne` + decode of the current task,
the done-transition guard and invoice call, then `UpdateOne`. -/
def updateTask (store : List Doc) (method : String) (idStr : String)
    (body : Option (List (String × BVal))) (resp : HttpResp) : UpdateResult :=
  if method ≠ "PUT" then ⟨405, store, []⟩ else
  match objectIDFromHex idStr with
  | none => ⟨400, store, []⟩
  | some objectID =>
    match body with
    | none => ⟨400, store, []⟩
    | some updates =>
      match buildUpdateDoc updates with
      | Except.error _ => ⟨400, store, []⟩
      | Except.ok updateDoc =>
        match findOne store objectID with
        | none => ⟨404, store, []⟩
        | some doc =>
          match decode doc with
          | none => ⟨404, store, []⟩
          | some currentTask =>
            if currentTask.status ≠ "done"
                ∧ List.lookup "status" updates = some (BVal.str "done") then
              let pr := createInvoiceInBillingService currentTask resp
              match pr.2 with
              | Except.error _ => ⟨500, store, [pr.1]⟩
              | Except.ok invoiceID =>
                ⟨204,
                 updateOne store objectID
                   (updateDoc ++ [("invoice_id", BVal.oid invoiceID)]),
                 [pr.1]⟩
            else ⟨204, updateOne store objectID updateDoc, []⟩

/-- The warning sentence `createTask` appends on overlap. -/
def warningMsg : String := " Warning: This task overlaps with existing task(s)."

/-- The Mongo overlap filter of `createTask`:
`assigned_to = task.AssignedTo ∧ end_date $gt task.StartDate ∧
start_date $lt task.EndDate`; range operators only match datetime fields. -/
def overlapFilter (task : Task) (d : Doc) : Bool :=
  (d.lookup "assigned_to" == some (BVal.oid task.assignedTo)) &&
  (match d.lookup "end_date" with
   | some (BVal.time e) => decide (task.startDate < e)
   | _ => false) &&
  (match d.lookup "start_date" with
   | some (BVal.time s) => decide (s < task.endDate)
   | _ => false)

/-- `cursor.All` into `[]Task`: decodes documents until the first failure
(whose error `createTask` ignores, leaving the prefix). -/
def decodeList : List Doc → List Task
  | [] => []
  | d :: rest =>
    match decode d with
    | some t => t :: decodeList rest
    | none => []

/-- Outcome of one `createTask` request. -/
structure CreateResult where
  status : Nat
  store : List Doc
deriving DecidableEq, Repr

/-- The `createTask` handler: body is the decoded request `Task` (`none` is
a JSON decode failure), `queryErr` models a failing overlap `Find`, `newID`
the fresh object id.  Overlap only appends the warning to the description;
the task is inserted regardless. -/
def createTask (store : List Doc) (body : Option Task) (queryErr : Bool)
    (newID : ObjectId) : CreateResult :=
  match body with
  | none => ⟨400, store⟩
  | some task =>
    if queryErr then ⟨500, store⟩ else
    let overlappingTasks := decodeList (store.filter (overlapFilter task))
    let task1 :=
      if overlappingTasks.length > 0 then
        { task with description := task.description ++ warningMsg }
      else task
    let task2 := { task1 with id := newID }
    ⟨200, store ++ [encode task2]⟩

/-- The caller-facing part of a request seen by the authorization gate. -/
structure AuthRequest where
  headerUserID : String
  queryUserID : String
  method : String
deriving DecidableEq, Repr

/-- The identity service's response as observed by `isAdmin`: connection
failure, or a status code with the decoded `role` field (`none` is a body
decode failure). -/
inductive IdResp where
  | connError : IdResp
  | resp : Nat → Option String → IdResp
deriving DecidableEq, Repr

/-- The user id `isAdmin` resolves from the `User-ID` header, falling back
to the `user_id` query parameter. -/
def callerID (req : AuthRequest) : String :=
  if req.headerUserID ≠ "" then req.headerUserID else req.queryUserID

/-- `isAdmin`: calls the user service for `callerID req` and returns `true`
only when the call succeeds with status OK, the body decodes, and the role
is the literal `"admin"`; every failure yields `false` (fail-closed). -/
def isAdmin (req : AuthRequest) (idResp : IdResp) : Bool :=
  let _uid := callerID req
  match idResp with
  | IdResp.connError => false
  | IdResp.resp status role =>
    if status ≠ 200 then false
    else
      match role with
      | none => false
      | some r => r == "admin"

/-- `adminMiddleware`: rejects with 401 Unauthorized, leaving the store
untouched, unless `isAdmin` holds; otherwise runs the wrapped handler. -/
def adminMiddleware {σ : Type} (next : AuthRequest → σ → Nat × σ)
    (idResp : IdResp) (req : AuthRequest) (store : σ) : Nat × σ :=
  if !isAdmin req idResp then (401, store) else next req store

/-- The `removeAllTasks` handler: `DeleteMany` with an empty filter; no
explicit status is written on success, so the implicit 200 is returned. -/
def removeAllTasks (req : AuthRequest) (store : List Doc) : Nat × List Doc :=
  if req.method ≠ "DELETE" then (405, store) else (200, [])

/-- The route registration
`mux.Handle("/tasks/removeAllTasks", http.HandlerFunc(removeAllTasks))`:
unlike `/tasks/remove/`, the handler is bound without `adminMiddleware`, so
the identity-resolution outcome `idResp` is never consulted. -/
def removeAllTasksRoute (idResp : IdResp) (req : AuthRequest)
    (store : List Doc) : Nat × List Doc :=
  removeAllTasks req store

/-- The whitelist of patch keys recognized by the `updateTask` switch. -/
def allowedKeys : List String :=
  ["title", "description", "assigned_to", "status", "hours",
   "start_date", "end_date", "parent_task"]

/-- A concrete stored task used to instantiate the theorems. -/
def task0 : Task where
  id := 1
  title := "demo"
  description := "d"
  assignedTo := 2
  status := "open"
  hours := 3
  startDate := 0
  endDate := 10
  invoiceID := 0
  parentTask := none

/-- A one-task store holding `task0`. -/
def store0 : List Doc := [encode task0]

/-- The hex id string of `task0`. -/
def hex1 : String := "000000000000000000000001"

/-- `task0` already in the terminal status. -/
def taskDone : Task := { task0 with status := "done" }

/-- A one-task store holding `taskDone`. -/
def storeDone : List Doc := [encode taskDone]

/-- A second task of the same assignee whose interval [5,15) properly
overlaps the [0,10) interval of `task0`. -/
def taskB : Task := { task0 with id := 3, startDate := 5, endDate := 15 }

/-- A zero-width task of the same assignee sitting strictly inside the
interval of `task0`. -/
def taskZW : Task := { task0 with id := 7, startDate := 5, endDate := 5 }

/-- A creation request body carrying a client-supplied invoice reference. -/
def ctask : Task := { task0 with invoiceID := 7 }

/-- A billing record as returned by the billing service. -/
def bill9 : Billing where
  id := 9
  userID := 0
  taskID := 0
  hours := 0
  amount := 0

/-- A request whose caller resolves to a non-admin role. -/
def reqNonAdmin : AuthRequest where
  headerUserID := "u1"
  queryUserID := ""
  method := "DELETE"

theorem updateOne_nil_set (store : List Doc) (i : ObjectId) :
    updateOne store i [] = store := by
  induction store with
  | nil => rfl
  | cons d rest ih =>
    unfold updateOne
    split
    · rfl
    · rw [ih]

theorem setField_lookup_ne (d : Doc) (k k2 : String) (v : BVal) (h : k2 ≠ k) :
    List.lookup k2 (setField d k v) = List.lookup k2 d := by
  have hb : (k2 == k) = false := beq_eq_false_iff_ne.mpr h
  induction d with
  | nil => simp only [setField, List.lookup, hb]
  | cons p rest ih =>
    obtain ⟨k3, v3⟩ := p
    unfold setField
    split
    · rename_i h3
      subst h3
      simp only [List.lookup, hb]
    · simp only [List.lookup]
      cases hc : k2 == k3
      · exact ih
      · rfl

theorem applySet_lookup_ne (s : Doc) (d : Doc) (k : String)
    (hs : ∀ p ∈ s, p.1 ≠ k) :
    List.lookup k (applySet d s) = List.lookup k d := by
  induction s generalizing d with
  | nil => rfl
  | cons p rest ih =>
    have h1 : p.1 ≠ k := hs p (List.mem_cons_self p rest)
    calc List.lookup k (applySet d (p :: rest))
        = List.lookup k (applySet (setField d p.1 p.2) rest) := rfl
      _ = List.lookup k (setField d p.1 p.2) :=
          ih (setField d p.1 p.2) (fun q hq => hs q (List.mem_cons_of_mem p hq))
      _ = List.lookup k d := setField_lookup_ne d p.1 k p.2 (Ne.symm h1)

theorem updateOne_map_lookup (store : List Doc) (i : ObjectId) (s : Doc) (k : String)
    (hs : ∀ p ∈ s, p.1 ≠ k) :
    (updateOne store i s).map (fun d => List.lookup k d)
      = store.map (fun d => List.lookup k d) := by
  induction store with
  | nil => rfl
  | cons d rest ih =>
    unfold updateOne
    split
    · simp [applySet_lookup_ne s d k hs]
    · simp only [List.map_cons]
      rw [ih]

theorem patchEntry_unrecognized (key : String) (v : BVal) (h : key ∉ allowedKeys) :
    patchEntry key v = Except.ok none := by
  simp only [allowedKeys, List.mem_cons, List.not_mem_nil, or_false, not_or] at h
  obtain ⟨h1, h2, h3, h4, h5, h6, h7, h8⟩ := h
  simp [patchEntry, h1, h2, h3, h4, h5, h6, h7, h8]

theorem patchEntry_ok_some_fst (key : String) (v : BVal) (kv : String × BVal)
    (h : patchEntry key v = Except.ok (some kv)) : kv.1 ≠ "invoice_id" := by
  unfold patchEntry at h
  split at h
  · rename_i hkey
    simp only [Except.ok.injEq, Option.some.injEq] at h
    subst h
    rcases hkey with h1 | h1 | h1 | h1 | h1 <;> simp [h1]
  · split at h
    · rename_i hkey
      split at h
      · split at h
        · simp at h
        · simp only [Except.ok.injEq, Option.some.injEq] at h
          subst h
          rcases hkey with h1 | h1 <;> simp [h1]
      · simp at h
    · split at h
      · split at h
        · split at h
          · simp at h
          · simp only [Except.ok.injEq, Option.some.injEq] at h
            subst h
            simp
        · simp at h
      · simp at h

theorem buildUpdateDoc_fst_ne (updates : List (String × BVal)) (d : Doc)
    (h : buildUpdateDoc updates = Except.ok d) : ∀ p ∈ d, p.1 ≠ "invoice_id" := by
  induction updates generalizing d with
  | nil =>
    simp only [buildUpdateDoc, Except.ok.injEq] at h
    subst h
    simp
  | cons kv rest ih =>
    obtain ⟨key, value⟩ := kv
    cases hpe : patchEntry key value with
    | error e => simp [buildUpdateDoc, hpe] at h
    | ok o =>
      cases o with
      | none =>
        simp only [buildUpdateDoc, hpe] at h
        exact ih d h
      | some kv2 =>
        cases hbd : buildUpdateDoc rest with
        | error e => simp [buildUpdateDoc, hpe, hbd] at h
        | ok d2 =>
          simp only [buildUpdateDoc, hpe, hbd, Except.ok.injEq] at h
          subst h
          intro p hp
          rcases List.mem_cons.mp hp with h1 | h1
          · subst h1
            exact patchEntry_ok_some_fst key value p hpe
          · exact ih d2 hbd p h1

theorem buildUpdateDoc_unrecognized (updates : List (String × BVal))
    (h : ∀ p ∈ updates, p.1 ∉ allowedKeys) :
    buildUpdateDoc updates = Except.ok [] := by
  induction updates with
  | nil => rfl
  | cons kv rest ih =>
    obtain ⟨key, value⟩ := kv
    have h1 := patchEntry_unrecognized key value
      (h (key, value) (List.mem_cons_self (key, value) rest))
    simp only [buildUpdateDoc, h1]
    exact ih (fun p hp => h p (List.mem_cons_of_mem (key, value) hp))

theorem lookup_not_mem_none (updates : List (String × BVal)) (k : String)
    (h : ∀ p ∈ updates, p.1 ≠ k) : List.lookup k updates = none := by
  induction updates with
  | nil => rfl
  | cons kv rest ih =>
    obtain ⟨k2, v2⟩ := kv
    have h1 : k2 ≠ k := h (k2, v2) (List.mem_cons_self (k2, v2) rest)
    have hb : (k == k2) = false := beq_eq_false_iff_ne.mpr (Ne.symm h1)
    simp only [List.lookup, hb]
    exact ih (fun p hp => h p (List.mem_cons_of_mem (k2, v2) hp))

theorem buildUpdateDoc_bad_date (updates : List (String × BVal)) (s : String)
    (hparse : parseRFC3339 s = none)
    (hmem : ("start_date", BVal.str s) ∈ updates
      ∨ ("end_date", BVal.str s) ∈ updates) :
    ∃ e, buildUpdateDoc updates = Except.error e := by
  induction updates with
  | nil => rcases hmem with h | h <;> simp at h
  | cons kv rest ih =>
    obtain ⟨key, value⟩ := kv
    by_cases hhead : (key, value) = ("start_date", BVal.str s)
      ∨ (key, value) = ("end_date", BVal.str s)
    · rcases hhead with h1 | h1 <;>
      · injection h1 with hk hv
        subst hk
        subst hv
        exact ⟨"Invalid date format", by simp [buildUpdateDoc, patchEntry, hparse]⟩
    · have hmem2 : ("start_date", BVal.str s) ∈ rest
          ∨ ("end_date", BVal.str s) ∈ rest := by
        rcases hmem with h | h
        · rcases List.mem_cons.mp h with h1 | h1
          · exact absurd (Or.inl h1.symm) hhead
          · exact Or.inl h1
        · rcases List.mem_cons.mp h with h1 | h1
          · exact absurd (Or.inr h1.symm) hhead
          · exact Or.inr h1
      obtain ⟨e, he⟩ := ih hmem2
      cases hpe : patchEntry key value with
      | error e2 => exact ⟨e2, by simp [buildUpdateDoc, hpe]⟩
      | ok o =>
        cases o with
        | none => exact ⟨e, by simp only [buildUpdateDoc, hpe]; exact he⟩
        | some kv2 => exact ⟨e, by simp [buildUpdateDoc, hpe, he]⟩

theorem lookup_encode_assigned_to (t : Task) :
    List.lookup "assigned_to" (encode t) = some (BVal.oid t.assignedTo) := rfl

theorem lookup_encode_start_date (t : Task) :
    List.lookup "start_date" (encode t) = some (BVal.time t.startDate) := rfl

theorem lookup_encode_end_date (t : Task) :
    List.lookup "end_date" (encode t) = some (BVal.time t.endDate) := rfl

/-- C1: if an update patch takes a task from a non-"done" status to "done"
and invoice issuance fails (connection error, non-OK status, or response
body decode error), `updateTask` reports a 500 server error and persists
nothing: the store is exactly as it was before the patch. -/
theorem updateTask_invoice_failure_atomic (store : List Doc) (idStr : String)
    (updates : List (String × BVal)) (resp : HttpResp) (objectID : ObjectId)
    (updateDoc doc : Doc) (currentTask : Task)
    (hid : objectIDFromHex idStr = some objectID)
    (hbd : buildUpdateDoc updates = Except.ok updateDoc)
    (hfind : findOne store objectID = some doc)
    (hdec : decode doc = some currentTask)
    (hst : currentTask.status ≠ "done")
    (hpatch : List.lookup "status" updates = some (BVal.str "done"))
    (hfail : invoiceOutcome resp = Except.error ()) :
    updateTask store "PUT" idStr (some updates) resp
      = ⟨500, store, [billingPayload currentTask]⟩ := by
  simp [updateTask, hid, hbd, hfind, hdec, hst, hpatch,
    createInvoiceInBillingService, hfail]

/-- Witness for C1 at a concrete store, patch and failing response. -/
theorem updateTask_invoice_failure_atomic_witness :
    objectIDFromHex hex1 = some 1 ∧
    buildUpdateDoc [("status", BVal.str "done")]
      = Except.ok [("status", BVal.str "done")] ∧
    findOne store0 1 = some (encode task0) ∧
    decode (encode task0) = some task0 ∧
    task0.status ≠ "done" ∧
    List.lookup "status" [("status", BVal.str "done")] = some (BVal.str "done") ∧
    invoiceOutcome HttpResp.connError = Except.error () ∧
    updateTask store0 "PUT" hex1 (some [("status", BVal.str "done")])
      HttpResp.connError = ⟨500, store0, [billingPayload task0]⟩ :=
  ⟨by decide, rfl, by decide, by decide, by decide, by decide, rfl,
   updateTask_invoice_failure_atomic store0 hex1 [("status", BVal.str "done")]
     HttpResp.connError 1 [("status", BVal.str "done")] (encode task0) task0
     (by decide) rfl (by decide) (by decide) (by decide) (by decide) rfl⟩

/-- C2: a patch moving a task from a non-"done" status to "done" makes
exactly one billing call, carrying the assignee, the task id, and the
current persisted hours H with amount = H × hourlyRate (not any hours
value also present in the same patch), and on success the returned billing
record's id is merged as invoice_id into the same persisted update. -/
theorem updateTask_done_transition_billing (store : List Doc) (idStr : String)
    (updates : List (String × BVal)) (resp : HttpResp) (objectID : ObjectId)
    (updateDoc doc : Doc) (currentTask : Task) (invId : ObjectId)
    (hid : objectIDFromHex idStr = some objectID)
    (hbd : buildUpdateDoc updates = Except.ok updateDoc)
    (hfind : findOne store objectID = some doc)
    (hdec : decode doc = some currentTask)
    (hst : currentTask.status ≠ "done")
    (hpatch : List.lookup "status" updates = some (BVal.str "done"))
    (hok : invoiceOutcome resp = Except.ok invId) :
    updateTask store "PUT" idStr (some updates) resp
      = ⟨204,
         updateOne store objectID (updateDoc ++ [("invoice_id", BVal.oid invId)]),
         [{ id := 0, userID := currentTask.assignedTo, taskID := currentTask.id,
            hours := currentTask.hours,
            amount := currentTask.hours * hourlyRate }]⟩ := by
  simp [updateTask, hid, hbd, hfind, hdec, hst, hpatch,
    createInvoiceInBillingService, hok, billingPayload]

/-- Witness for C2: the patch also carries hours 42, yet the billing
payload uses the persisted hours 3 of the stored task. -/
theorem updateTask_done_transition_billing_witness :
    objectIDFromHex hex1 = some 1 ∧
    buildUpdateDoc [("status", BVal.str "done"), ("hours", BVal.num 42)]
      = Except.ok [("status", BVal.str "done"), ("hours", BVal.num 42)] ∧
    findOne store0 1 = some (encode task0) ∧
    decode (encode task0) = some task0 ∧
    task0.status ≠ "done" ∧
    List.lookup "status" [("status", BVal.str "done"), ("hours", BVal.num 42)]
      = some (BVal.str "done") ∧
    invoiceOutcome (HttpResp.resp 200 (some bill9)) = Except.ok 9 ∧
    updateTask store0 "PUT" hex1
      (some [("status", BVal.str "done"), ("hours", BVal.num 42)])
      (HttpResp.resp 200 (some bill9))
      = ⟨204,
         updateOne store0 1
           ([("status", BVal.str "done"), ("hours", BVal.num 42)]
             ++ [("invoice_id", BVal.oid 9)]),
         [{ id := 0, userID := task0.assignedTo, taskID := task0.id,
            hours := task0.hours, amount := task0.hours * hourlyRate }]⟩ :=
  ⟨by decide, rfl, by decide, by decide, by decide, by decide, rfl,
   updateTask_done_transition_billing store0 hex1
     [("status", BVal.str "done"), ("hours", BVal.num 42)]
     (HttpResp.resp 200 (some bill9)) 1
     [("status", BVal.str "done"), ("hours", BVal.num 42)] (encode task0) task0 9
     (by decide) rfl (by decide) (by decide) (by decide) (by decide) rfl⟩

/-- C3: a patch setting status "done" on a task whose current persisted
status is already "done" makes zero billing calls: the guard requires the
current status to differ from "done", so the update is a plain field
write. -/
theorem updateTask_done_to_done_plain (store : List Doc) (idStr : String)
    (updates : List (String × BVal)) (resp : HttpResp) (objectID : ObjectId)
    (updateDoc doc : Doc) (currentTask : Task)
    (hid : objectIDFromHex idStr = some objectID)
    (hbd : buildUpdateDoc updates = Except.ok updateDoc)
    (hfind : findOne store objectID = some doc)
    (hdec : decode doc = some currentTask)
    (hst : currentTask.status = "done")
    (hpatch : List.lookup "status" updates = some (BVal.str "done")) :
    updateTask store "PUT" idStr (some updates) resp
      = ⟨204, updateOne store objectID updateDoc, []⟩ := by
  simp [updateTask, hid, hbd, hfind, hdec, hst]

/-- Witness for C3 at a task already in status "done". -/
theorem updateTask_done_to_done_plain_witness :
    objectIDFromHex hex1 = some 1 ∧
    buildUpdateDoc [("status", BVal.str "done")]
      = Except.ok [("status", BVal.str "done")] ∧
    findOne storeDone 1 = some (encode taskDone) ∧
    decode (encode taskDone) = some taskDone ∧
    taskDone.status = "done" ∧
    List.lookup "status" [("status", BVal.str "done")] = some (BVal.str "done") ∧
    updateTask storeDone "PUT" hex1 (some [("status", BVal.str "done")])
      HttpResp.connError
      = ⟨204, updateOne storeDone 1 [("status", BVal.str "done")], []⟩ :=
  ⟨by decide, rfl, by decide, by decide, by decide, by decide,
   updateTask_done_to_done_plain storeDone hex1 [("status", BVal.str "done")]
     HttpResp.connError 1 [("status", BVal.str "done")] (encode taskDone)
     taskDone (by decide) rfl (by decide) (by decide) (by decide)
     (by decide)⟩

/-- C4 counterexample: the zero-width task [5,5) of the same assignee is
flagged as overlapping the candidate [0,10), although
max(s1,s2) < min(e1,e2) fails there; both the claimed iff and the claimed
zero-width edge case are false on the code's filter. -/
theorem overlap_zero_width_flagged_cex :
    overlapFilter task0 (encode taskZW) = true ∧
    ¬ max task0.startDate taskZW.startDate < min task0.endDate taskZW.endDate := by
  decide

/-- C4 amended: for tasks of the same assignee whose intervals are both
proper (start strictly before end), the creation-time filter flags overlap
iff max(s1,s2) < min(e1,e2); the properness restriction is forced because
the filter tests s2 < e1 and s1 < e2, which differs on degenerate
intervals. -/
theorem overlap_flag_iff_proper (cand ex : Task)
    (hsame : ex.assignedTo = cand.assignedTo)
    (h1 : cand.startDate < cand.endDate) (h2 : ex.startDate < ex.endDate) :
    (overlapFilter cand (encode ex) = true
      ↔ max cand.startDate ex.startDate < min cand.endDate ex.endDate) := by
  unfold overlapFilter
  rw [lookup_encode_assigned_to, lookup_encode_end_date,
    lookup_encode_start_date, hsame]
  simp only [beq_self_eq_true, Bool.true_and, Bool.and_eq_true,
    decide_eq_true_eq]
  rw [max_lt_iff, lt_min_iff, lt_min_iff]
  constructor
  · rintro ⟨ha, hb⟩
    exact ⟨⟨h1, ha⟩, hb, h2⟩
  · rintro ⟨⟨_, ha⟩, hb, _⟩
    exact ⟨ha, hb⟩

/-- Witness for C4 on two proper overlapping intervals of one assignee. -/
theorem overlap_flag_iff_proper_witness :
    taskB.assignedTo = task0.assignedTo ∧
    task0.startDate < task0.endDate ∧ taskB.startDate < taskB.endDate ∧
    (overlapFilter task0 (encode taskB) = true
      ↔ max task0.startDate taskB.startDate < min task0.endDate taskB.endDate) :=
  ⟨by decide, by decide, by decide,
   overlap_flag_iff_proper task0 taskB (by decide) (by decide) (by decide)⟩

/-- C5 counterexample: a creation request whose body carries a
client-supplied invoice id is stored with that invoice reference, so a
creation request can yield a stored task carrying an invoiceRef. -/
theorem createTask_invoice_ref_cex :
    (createTask [] (some ctask) false 5).status = 200 ∧
    (createTask [] (some ctask) false 5).store.map
        (fun d => List.lookup "invoice_id" d)
      = [some (BVal.oid 7)] := by
  decide

/-- C5 amended: along the update path invoice_id changes only when the
non-done-to-done guard fires (a patch cannot set it, not being in the
whitelist): whenever `updateTask` makes no invoice call, every stored
document keeps its invoice_id field exactly. -/
theorem update_path_invoice_only_on_transition (store : List Doc)
    (idStr : String) (updates : List (String × BVal)) (resp : HttpResp)
    (hnc : (updateTask store "PUT" idStr (some updates) resp).invoiceCalls = []) :
    (updateTask store "PUT" idStr (some updates) resp).store.map
        (fun d => List.lookup "invoice_id" d)
      = store.map (fun d => List.lookup "invoice_id" d) := by
  rcases hoid : objectIDFromHex idStr with _ | objectID
  · simp [updateTask, hoid]
  · rcases hbd : buildUpdateDoc updates with e | updateDoc
    · simp [updateTask, hoid, hbd]
    · rcases hfind : findOne store objectID with _ | doc
      · simp [updateTask, hoid, hbd, hfind]
      · rcases hdec : decode doc with _ | currentTask
        · simp [updateTask, hoid, hbd, hfind, hdec]
        · by_cases hguard : currentTask.status ≠ "done"
              ∧ List.lookup "status" updates = some (BVal.str "done")
          · exfalso
            rcases hres : invoiceOutcome resp with u | invId
            · simp [updateTask, hoid, hbd, hfind, hdec, hguard,
                createInvoiceInBillingService, hres] at hnc
            · simp [updateTask, hoid, hbd, hfind, hdec, hguard,
                createInvoiceInBillingService, hres] at hnc
          · simp only [updateTask, hoid, hbd, hfind, hdec]
            simp [hguard]
            simpa using updateOne_map_lookup store objectID updateDoc
              "invoice_id" (buildUpdateDoc_fst_ne updates updateDoc hbd)

/-- Witness for C5 on a plain title patch that makes no invoice call. -/
theorem update_path_invoice_only_on_transition_witness :
    (updateTask store0 "PUT" hex1 (some [("title", BVal.str "x")])
        HttpResp.connError).invoiceCalls = [] ∧
    (updateTask store0 "PUT" hex1 (some [("title", BVal.str "x")])
        HttpResp.connError).store.map (fun d => List.lookup "invoice_id" d)
      = store0.map (fun d => List.lookup "invoice_id" d) :=
  ⟨by decide,
   update_path_invoice_only_on_transition store0 hex1 [("title", BVal.str "x")]
     HttpResp.connError (by decide)⟩

/-- C6: overlap detection at creation is advisory: the task is always
created with status 200, and when the overlap query returns conflicts the
fixed warning sentence is appended to the stored description; no creation
is rejected for scheduling reasons. -/
theorem createTask_overlap_advisory (store : List Doc) (task : Task)
    (newID : ObjectId) :
    (createTask store (some task) false newID).status = 200 ∧
    (decodeList (store.filter (overlapFilter task)) ≠ [] →
      (createTask store (some task) false newID).store
        = store ++ [encode { task with
                             id := newID,
                             description := task.description ++ warningMsg }]) := by
  constructor
  · rfl
  · intro h
    have hpos : 0 < (decodeList (store.filter (overlapFilter task))).length :=
      List.length_pos.mpr h
    simp [createTask, hpos]

/-- Witness for C6 on a store holding an overlapping task. -/
theorem createTask_overlap_advisory_witness :
    (createTask [encode taskB] (some task0) false 6).status = 200 ∧
    decodeList (([encode taskB]).filter (overlapFilter task0)) ≠ [] ∧
    (createTask [encode taskB] (some task0) false 6).store
      = [encode taskB]
        ++ [encode { task0 with
                     id := 6,
                     description := task0.description ++ warningMsg }] :=
  ⟨(createTask_overlap_advisory [encode taskB] task0 6).1, by decide,
   (createTask_overlap_advisory [encode taskB] task0 6).2 (by decide)⟩

/-- C7 counterexample: the removeAllTasks route is registered without the
authorization gate: with the identity service resolving a non-admin role,
the handler still runs and empties the store. -/
theorem removeAllTasks_unguarded_cex :
    isAdmin reqNonAdmin (IdResp.resp 200 (some "user")) = false ∧
    removeAllTasksRoute (IdResp.resp 200 (some "user")) reqNonAdmin store0
      = (200, []) := by
  decide

/-- C7 amended: the gate itself is fail-closed — whenever `isAdmin` is
false (identity call failed, non-OK response, body decode failure, or role
different from "admin"), `adminMiddleware` rejects with a 401
authorization error and no store mutation occurs — but only the
single-task removal route is wrapped in it; the removeAllTasks route and
the billing-service removal routes are registered without the gate. -/
theorem adminMiddleware_fail_closed {σ : Type} (next : AuthRequest → σ → Nat × σ)
    (idResp : IdResp) (req : AuthRequest) (store : σ)
    (h : isAdmin req idResp = false) :
    adminMiddleware next idResp req store = (401, store) := by
  simp [adminMiddleware, h]

/-- Witness for C7 with a failing identity resolution. -/
theorem adminMiddleware_fail_closed_witness :
    isAdmin reqNonAdmin IdResp.connError = false ∧
    adminMiddleware removeAllTasks IdResp.connError reqNonAdmin store0
      = (401, store0) :=
  ⟨by decide, adminMiddleware_fail_closed removeAllTasks IdResp.connError
    reqNonAdmin store0 (by decide)⟩

/-- C8 counterexample: a patch with a non-numeric hours value is not
rejected: the update succeeds with 204 and the string is written through
into the stored document's hours field. -/
theorem hours_no_validation_cex :
    (updateTask store0 "PUT" hex1 (some [("hours", BVal.str "abc")])
        HttpResp.connError).status = 204 ∧
    (updateTask store0 "PUT" hex1 (some [("hours", BVal.str "abc")])
        HttpResp.connError).store.map (fun d => List.lookup "hours" d)
      = [some (BVal.str "abc")] := by
  decide

/-- C8 amended: the hours value is copied into the update document
verbatim, with no type validation at all: any JSON value under the hours
key is accepted and written through. -/
theorem hours_copied_verbatim (v : BVal) (rest : List (String × BVal)) (d : Doc)
    (h : buildUpdateDoc rest = Except.ok d) :
    buildUpdateDoc (("hours", v) :: rest) = Except.ok (("hours", v) :: d) := by
  simp [buildUpdateDoc, patchEntry, h]

/-- Witness for C8 at a negative hours value. -/
theorem hours_copied_verbatim_witness :
    buildUpdateDoc [] = Except.ok ([] : Doc) ∧
    buildUpdateDoc [("hours", BVal.num (-5))]
      = Except.ok [("hours", BVal.num (-5))] :=
  ⟨rfl, hours_copied_verbatim (BVal.num (-5)) [] [] rfl⟩

/-- C9 counterexample: a start value that is not a string (hence not a
timestamp in the fixed textual standard format) is silently dropped
instead of failing with a client error: the update succeeds with 204. -/
theorem date_non_string_dropped_cex :
    updateTask store0 "PUT" hex1 (some [("start_date", BVal.num 5)])
      HttpResp.connError = ⟨204, store0, []⟩ := by
  decide

/-- C9 amended: a start or end value that is a string not parseable in the
fixed textual standard format aborts the update with a 400 client error
before any collaborator is contacted: for every store and every billing
response the result leaves the store untouched and makes no invoice
call. -/
theorem bad_date_string_rejected (store : List Doc) (idStr : String)
    (updates : List (String × BVal)) (resp : HttpResp) (s : String)
    (hparse : parseRFC3339 s = none)
    (hmem : ("start_date", BVal.str s) ∈ updates
      ∨ ("end_date", BVal.str s) ∈ updates) :
    updateTask store "PUT" idStr (some updates) resp = ⟨400, store, []⟩ := by
  obtain ⟨e, he⟩ := buildUpdateDoc_bad_date updates s hparse hmem
  rcases hoid : objectIDFromHex idStr with _ | objectID
  · simp [updateTask, hoid]
  · simp [updateTask, hoid, he]

/-- Witness for C9 at an unparseable start string. -/
theorem bad_date_string_rejected_witness :
    parseRFC3339 "nope" = none ∧
    (("start_date", BVal.str "nope") ∈ [("start_date", BVal.str "nope")]
      ∨ ("end_date", BVal.str "nope") ∈ [("start_date", BVal.str "nope")]) ∧
    updateTask store0 "PUT" hex1 (some [("start_date", BVal.str "nope")])
      HttpResp.connError = ⟨400, store0, []⟩ :=
  ⟨by decide, Or.inl (by decide),
   bad_date_string_rejected store0 hex1 [("start_date", BVal.str "nope")]
     HttpResp.connError "nope" (by decide) (Or.inl (by decide))⟩

/-- C10: keys outside the recognized set are silently dropped, and a patch
that is empty or contains only unrecognized keys is a no-op on an existing
task: 204 is returned, the store is unchanged, and no collaborator is
called. -/
theorem unrecognized_keys_noop (store : List Doc) (idStr : String)
    (updates : List (String × BVal)) (resp : HttpResp) (objectID : ObjectId)
    (doc : Doc) (currentTask : Task)
    (hid : objectIDFromHex idStr = some objectID)
    (hkeys : ∀ p ∈ updates, p.1 ∉ allowedKeys)
    (hfind : findOne store objectID = some doc)
    (hdec : decode doc = some currentTask) :
    updateTask store "PUT" idStr (some updates) resp = ⟨204, store, []⟩ := by
  have hbd := buildUpdateDoc_unrecognized updates hkeys
  have hstatus : "status" ∈ allowedKeys := by decide
  have hlk : List.lookup "status" updates = none :=
    lookup_not_mem_none updates "status"
      (fun p hp hk => hkeys p hp (by rw [hk]; exact hstatus))
  simp [updateTask, hid, hbd, hfind, hdec, hlk, updateOne_nil_set]

/-- Witness for C10 at a patch holding only an unrecognized key. -/
theorem unrecognized_keys_noop_witness :
    objectIDFromHex hex1 = some 1 ∧
    (∀ p ∈ [("foo", BVal.str "bar")], p.1 ∉ allowedKeys) ∧
    findOne store0 1 = some (encode task0) ∧
    decode (encode task0) = some task0 ∧
    updateTask store0 "PUT" hex1 (some [("foo", BVal.str "bar")])
      HttpResp.connError = ⟨204, store0, []⟩ :=
  ⟨by decide, by decide, by decide, by decide,
   unrecognized_keys_noop store0 hex1 [("foo", BVal.str "bar")]
     HttpResp.connError 1 (encode task0) task0 (by decide) (by decide)
     (by decide) (by decide)⟩

end TaskService
